import Mathlib

/-!
Verification of the Discord auto-message server (`main.ts`): a shallow
embedding of the job registry, scheduler tick, message selector, sender and
SSE subscription code, together with theorems settling the specification
claims. JavaScript strings are modelled as `List Char`; JSON numbers as `ℚ`
extended with a NaN point; the single-threaded event-loop effects (timer
callbacks, fetch outcomes, random draws) are passed as explicit arguments.
-/

namespace Botdc

/-- JavaScript string, modelled as a list of characters. -/
abbrev JStr := List Char

/-- Whitespace recognised by `String.prototype.trim` (ASCII subset). -/
def isJsSpace (c : Char) : Bool :=
  c == ' ' || c == '\t' || c == '\n' || c == '\r' || c == '\x0b' || c == '\x0c'

/-- `s.trim()`: strip whitespace from both ends. -/
def jsTrim (s : JStr) : JStr :=
  ((s.dropWhile isJsSpace).reverse.dropWhile isJsSpace).reverse

/-- `sanitizeMessages` from main.ts: `raw.map((s) => s.trim()).filter((s) => s.length > 0)`. -/
def sanitizeMessages (raw : List JStr) : List JStr :=
  (raw.map jsTrim).filter (fun s => s.length > 0)

/-- `s.toLowerCase()` (ASCII lowercasing, which is what the `"bot "` check exercises). -/
def jsToLower (s : JStr) : JStr := s.map Char.toLower

/-- `pat` is an initial segment of `s` (JS `s.startsWith(pat)`). -/
def startsWithL : List Char → List Char → Bool
  | [], _ => true
  | _ :: _, [] => false
  | p :: ps, c :: cs => p == c && startsWithL ps cs

/-- `pat` occurs as a contiguous segment of `s` (JS `s.includes(pat)`). -/
def containsL (pat : List Char) : List Char → Bool
  | [] => startsWithL pat []
  | c :: rest => startsWithL pat (c :: rest) || containsL pat rest

/-- JS `s.replace(pat, repl)` with a string pattern: replaces only the first
occurrence of `pat` (an empty pattern matches at position 0). -/
def replaceFirst (pat repl : List Char) : List Char → List Char
  | [] => if startsWithL pat [] then repl else []
  | c :: rest =>
      if startsWithL pat (c :: rest) then repl ++ (c :: rest).drop pat.length
      else c :: replaceFirst pat repl rest

/-- The scheme token checked for, lowercased: `"bot "`. -/
def botSp : JStr := "bot ".toList

/-- `ensureBotPrefix` from main.ts:
`token.toLowerCase().startsWith("bot ") ? token : "Bot " + token`. -/
def ensureBotPrefix (token : JStr) : JStr :=
  if startsWithL botSp (jsToLower token) then token else "Bot ".toList ++ token

/-- A JSON / JavaScript number: a finite value or NaN. -/
inductive JSNum
  | num (q : ℚ)
  | nan
deriving DecidableEq

/-- Whether a JavaScript number is falsy (`0`, `-0` or `NaN`). -/
def JSNum.falsy : JSNum → Bool
  | JSNum.num q => q == 0
  | JSNum.nan => true

/-- `x || dflt` for an optional JavaScript number `x` (absent, NaN and 0 are falsy). -/
def jsOr (i : Option JSNum) (dflt : ℚ) : ℚ :=
  match i with
  | some (JSNum.num q) => if q = 0 then dflt else q
  | some JSNum.nan => dflt
  | none => dflt

/-- `Math.max(1, Math.floor(payload.intervalSeconds || 3600)) * 1000` from `startJob`. -/
def computeIntervalMs (i : Option JSNum) : Int :=
  max 1 ⌊jsOr i 3600⌋ * 1000

/-- Severity of a log line. -/
inductive LogLevel
  | info
  | error
  | warn
deriving DecidableEq

/-- One emitted log line (level plus free-text message). -/
structure LogLine where
  level : LogLevel
  message : JStr
deriving DecidableEq

/-- A server-sent event pushed into a subscriber's sink. -/
inductive SSEvent
  | hello (jobId : String) (name : JStr)
  | logLine (line : JStr)
  | stopEvt (jobId : String)
  | ping
deriving DecidableEq

/-- A `Subscriber` from main.ts: the stream controller is modelled by a
`closed` flag and the list of events enqueued so far; the per-subscriber
heartbeat `setInterval` handle is modelled by the `heartbeatActive` flag. -/
structure Subscriber where
  id : String
  closed : Bool
  heartbeatActive : Bool
  events : List SSEvent
deriving DecidableEq

/-- `controller.enqueue(e)` inside a try/catch: appending to a closed
controller throws, which the code swallows, so it is a no-op here. -/
def enqueue (s : Subscriber) (e : SSEvent) : Subscriber :=
  if s.closed then s else { s with events := s.events ++ [e] }

/-- The `Job` record from main.ts. `timer` is the `setInterval` handle. -/
structure Job where
  id : String
  name : JStr
  token : JStr
  channelId : JStr
  intervalMs : Int
  messages : List JStr
  timer : Option Nat
  subscribers : List Subscriber
  running : Bool
  lastSentAt : Option Int
deriving DecidableEq

/-- The `StartPayload` interface; optional fields model absent JSON keys. -/
structure StartPayload where
  name : Option JStr
  token : JStr
  channelId : JStr
  intervalSeconds : Option JSNum
  messages : Option (List JStr)
deriving DecidableEq

/-- Fallback display name `"Discord Bot"`. -/
def defaultName : JStr := "Discord Bot".toList

/-- Fallback message `"Hello from Deno Deploy!"` (used when `payload.messages`
is absent; a present array, even empty, is truthy in JavaScript). -/
def defaultMessage : JStr := "Hello from Deno Deploy!".toList

/-- The `Job` record literal built at the top of `startJob` (fresh id `id`),
before the timer is armed. -/
def startJobRecord (id : String) (p : StartPayload) : Job :=
  { id := id
    name := match p.name with
            | none => defaultName
            | some n => if (jsTrim n).length = 0 then defaultName else jsTrim n
    token := ensureBotPrefix (jsTrim p.token)
    channelId := jsTrim p.channelId
    intervalMs := computeIntervalMs p.intervalSeconds
    messages := sanitizeMessages (match p.messages with
                                  | none => [defaultMessage]
                                  | some ms => ms)
    timer := none
    subscribers := []
    running := true
    lastSentAt := none }

/-- What the scheduler does when a job starts. -/
inductive SchedulerAction
  | immediateTick
  | armInterval (periodMs : Int)
deriving DecidableEq

/-- `startJob` from main.ts: build the record, fire one tick at once, then
`setInterval(tick, job.intervalMs)` and store the handle. Returns the job as
registered and the scheduler actions in program order. -/
def startJob (id : String) (p : StartPayload) : Job × List SchedulerAction :=
  let j := startJobRecord id p
  ({ j with timer := some 0 },
   [SchedulerAction.immediateTick, SchedulerAction.armInterval j.intervalMs])

/-- The process-wide `jobs` map. -/
structure ServerState where
  jobs : List (String × Job)
deriving DecidableEq

/-- The initial, empty registry. -/
def emptyState : ServerState := ⟨[]⟩

/-- `jobs.get(id)`. -/
def lookupJob (st : ServerState) (id : String) : Option Job :=
  (st.jobs.find? (fun p => p.1 == id)).map (fun p => p.2)

/-- The `/start` handler's validation:
`!payload.token || !payload.channelId || !payload.messages?.length`.
Note it tests the raw message list's length, before sanitization. -/
def startValidationFails (p : StartPayload) : Bool :=
  p.token.length == 0 || p.channelId.length == 0 ||
    (match p.messages with
     | none => true
     | some ms => ms.length == 0)

/-- The `/start` handler: reject on validation failure, otherwise register
the started job under the fresh id and answer with it. -/
def handleStart (id : String) (p : StartPayload) (st : ServerState) :
    Except JStr (String × ServerState) :=
  if startValidationFails p then
    Except.error "Fields 'token', 'channelId', and 'messages' are required".toList
  else
    Except.ok (id, ⟨st.jobs ++ [(id, (startJob id p).1)]⟩)

/-- The per-subscriber body of `stopJob`'s notification loop:
`enqueue(stop event); close()` inside one try/catch. If the sink is already
closed the enqueue throws and the close is skipped; otherwise the stop event
is delivered while the sink is still open and the sink is closed after. -/
def stopNotify (jid : String) (s : Subscriber) : Subscriber :=
  if s.closed then s
  else { s with events := s.events ++ [SSEvent.stopEvt jid], closed := true }

/-- The mutations `stopJob` applies to the job object itself: clear the
running flag, `clearInterval` the repeat timer, notify every subscriber.
(The heap object outlives its registry entry; the registry removal is
`stopJob` below.) -/
def stopJobAux (job : Job) : Job :=
  { job with running := false
             timer := none
             subscribers := job.subscribers.map (stopNotify job.id) }

/-- `stopJob` from main.ts, registry view: `false` for an unknown id,
otherwise mutate the job (see `stopJobAux`), delete it from the map, return
`true`. -/
def stopJob (id : String) (st : ServerState) : Bool × ServerState :=
  match lookupJob st id with
  | none => (false, st)
  | some _ => (true, ⟨st.jobs.filter (fun p => p.1 != id)⟩)

/-- The JSON body `JSON.stringify({ content, tts: false })`, structurally. -/
structure RequestBody where
  content : JStr
  tts : Bool
deriving DecidableEq

/-- The outbound POST built by `sendDiscordMessage`. -/
structure DiscordRequest where
  url : JStr
  contentType : JStr
  userAgent : JStr
  authorization : JStr
  body : RequestBody
deriving DecidableEq

/-- The channel-message endpoint URL. -/
def discordUrl (channelId : JStr) : JStr :=
  "https://discord.com/api/v10/channels/".toList ++ channelId ++ "/messages".toList

/-- The request `sendDiscordMessage` dispatches: the stored credential goes
into the authorization header verbatim. -/
def discordRequest (job : Job) (content : JStr) : DiscordRequest :=
  { url := discordUrl job.channelId
    contentType := "application/json".toList
    userAgent := "DiscordBot-DenoDeploy".toList
    authorization := job.token
    body := { content := content, tts := false } }

/-- Outcome of the `fetch` await: a response (any status) or a thrown
transport-level error with its message. -/
inductive FetchOutcome
  | response (status : Nat) (statusText : JStr) (body : JStr)
  | failure (message : JStr)
deriving DecidableEq

/-- The info line logged on a 2xx response. -/
def successLine (content : JStr) : JStr :=
  "Message sent successfully: \"".toList ++ content.take 80 ++ "\"".toList

/-- The error line logged on a non-2xx response. -/
def httpErrorLine (status : Nat) (statusText text : JStr) : JStr :=
  "HTTP ".toList ++ (toString status).toList ++ " ".toList ++ statusText ++
    " | response: ".toList ++ text.take 300

/-- The error line logged when the fetch throws. -/
def exceptionLine (msg : JStr) : JStr :=
  "Exception while sending message: ".toList ++ msg

/-- `sendDiscordMessage` from main.ts, as a function from the fetch outcome
to the request it dispatches and the log lines it emits: every branch logs
and returns (the try/catch means no outcome propagates to the caller). -/
def sendDiscordMessage (job : Job) (content : JStr) (outcome : FetchOutcome) :
    DiscordRequest × List LogLine :=
  (discordRequest job content,
   match outcome with
   | FetchOutcome.response status statusText text =>
       if 200 ≤ status ∧ status < 300 then
         [{ level := LogLevel.info, message := successLine content }]
       else
         [{ level := LogLevel.error, message := httpErrorLine status statusText text }]
   | FetchOutcome.failure msg =>
       [{ level := LogLevel.error, message := exceptionLine msg }])

/-- The placeholder token `{now}`. -/
def nowTok : JStr := "\x7bnow\x7d".toList

/-- `new Date().toISOString().replace("T", " ").slice(0, 19)`, as a function
of the ISO timestamp string. -/
def formatNow (isoNow : JStr) : JStr :=
  (replaceFirst "T".toList " ".toList isoNow).take 19

/-- The selector's substitution: `template.replace("\x7bnow\x7d", formatted now)`. -/
def substituteNow (isoNow template : JStr) : JStr :=
  replaceFirst nowTok (formatNow isoNow) template

/-- `pickRandom(arr)` is `arr[Math.floor(Math.random() * arr.length)]`: the
draw `k` is in range for a non-empty array, and the lookup is `undefined`
(`none`) on an empty one. -/
def pickRandom (arr : List JStr) (k : Nat) : Option JStr := arr.get? k

/-- Result of one `tick` run: skipped (running flag down), crashed (message
pool empty, so `undefined.replace` throws a TypeError), or a completed send
with the job as mutated, the content sent and the log lines emitted. -/
inductive TickOutcome
  | skipped
  | crash
  | sent (job : Job) (content : JStr) (logs : List LogLine)
deriving DecidableEq

/-- The `tick` closure from `startJob`: guard on the running flag, pick a
template, substitute `\x7bnow\x7d`, send, then set `lastSentAt`. `k` is the
random draw, `isoNow` the wall clock at substitution time, `sentAtMs` the
wall clock after the send completes. -/
def tick (job : Job) (k : Nat) (isoNow : JStr) (outcome : FetchOutcome)
    (sentAtMs : Int) : TickOutcome :=
  if job.running then
    match pickRandom job.messages k with
    | none => TickOutcome.crash
    | some template =>
        let msg := substituteNow isoNow template
        TickOutcome.sent { job with lastSentAt := some sentAtMs } msg
          (sendDiscordMessage job msg outcome).2
  else TickOutcome.skipped

/-- The `start` callback of `sseStream`'s ReadableStream: create a subscriber
with a fresh heartbeat interval, add it to the job's set, enqueue the hello
event. Returns the job and the subscriber as created. -/
def attachSubscriber (subId : String) (job : Job) : Job × Subscriber :=
  let sub : Subscriber :=
    { id := subId, closed := false, heartbeatActive := true
      events := [SSEvent.hello job.id job.name] }
  ({ job with subscribers := job.subscribers ++ [sub] }, sub)

/-- `clearInterval(heartbeat)`: idempotent release of the heartbeat handle. -/
def releaseHeartbeat (s : Subscriber) : Subscriber :=
  { s with heartbeatActive := false }

/-- The abort listener in `sseStream`: clear the heartbeat interval and
remove the subscriber from the job's set. -/
def onAbort (job : Job) (s : Subscriber) : Job × Subscriber :=
  ({ job with subscribers := job.subscribers.filter (fun t => t.id != s.id) },
   releaseHeartbeat s)

/-! ### String lemmas -/

theorem startsWithL_append (p t : List Char) : startsWithL p (p ++ t) = true := by
  induction p with
  | nil => rfl
  | cons a ps ih => simp [startsWithL, ih]

theorem startsWithL_nil_eq (p : List Char) (h : startsWithL p [] = true) : p = [] := by
  cases p with
  | nil => rfl
  | cons a ps => simp [startsWithL] at h

theorem startsWithL_drop (p : List Char) :
    ∀ s, startsWithL p s = true → p ++ s.drop p.length = s := by
  induction p with
  | nil => intro s _; simp
  | cons a ps ih =>
      intro s h
      cases s with
      | nil => simp [startsWithL] at h
      | cons b rest =>
          simp only [startsWithL, Bool.and_eq_true, beq_iff_eq] at h
          obtain ⟨rfl, hrest⟩ := h
          simp only [List.cons_append, List.length_cons, List.drop_succ_cons]
          rw [ih rest hrest]

theorem containsL_cons (p : List Char) (c : Char) (s : List Char)
    (h : containsL p s = true) : containsL p (c :: s) = true := by
  simp [containsL, h]

theorem containsL_of_startsWith (p s : List Char) (h : startsWithL p s = true) :
    containsL p s = true := by
  cases s with
  | nil => simpa [containsL] using h
  | cons c rest => simp [containsL, h]

theorem containsL_self_append (p t : List Char) : containsL p (p ++ t) = true :=
  containsL_of_startsWith p (p ++ t) (startsWithL_append p t)

theorem containsL_append_left (pre p s : List Char)
    (h : containsL p s = true) : containsL p (pre ++ s) = true := by
  induction pre with
  | nil => simpa using h
  | cons c pres ih => simpa [List.cons_append] using containsL_cons p c _ ih

theorem containsL_mid (pre p t : List Char) : containsL p (pre ++ (p ++ t)) = true :=
  containsL_append_left pre p (p ++ t) (containsL_self_append p t)

theorem replaceFirst_of_not_contains (p r : List Char) :
    ∀ s, containsL p s = false → replaceFirst p r s = s := by
  intro s
  induction s with
  | nil =>
      intro h
      simp only [containsL] at h
      simp [replaceFirst, h]
  | cons c rest ih =>
      intro h
      simp only [containsL, Bool.or_eq_false_iff] at h
      obtain ⟨h1, h2⟩ := h
      simp [replaceFirst, h1, ih h2]

theorem replaceFirst_decomp (p r : List Char) :
    ∀ s, containsL p s = true →
      ∃ pre suf, s = pre ++ p ++ suf ∧ replaceFirst p r s = pre ++ r ++ suf := by
  intro s
  induction s with
  | nil =>
      intro h
      simp only [containsL] at h
      have hp := startsWithL_nil_eq p h
      subst hp
      exact ⟨[], [], by simp, by simp [replaceFirst, startsWithL]⟩
  | cons c rest ih =>
      intro h
      cases hsw : startsWithL p (c :: rest) with
      | true =>
          refine ⟨[], (c :: rest).drop p.length, ?_, ?_⟩
          · rw [List.nil_append]
            exact (startsWithL_drop p (c :: rest) hsw).symm
          · simp [replaceFirst, hsw]
      | false =>
          have h2 : containsL p rest = true := by
            simp only [containsL, hsw, Bool.false_or] at h
            exact h
          obtain ⟨pre, suf, hs, hr⟩ := ih h2
          refine ⟨c :: pre, suf, ?_, ?_⟩
          · simp [hs]
          · simp [replaceFirst, hsw, hr]

/-! ### Concrete fixtures -/

/-- A subscriber with an open sink and a live heartbeat. -/
def demoSub : Subscriber :=
  { id := "s1", closed := false, heartbeatActive := true, events := [] }

/-- A small running job with one subscriber. -/
def demoJob : Job :=
  { id := "j1", name := "n".toList, token := "Bot t".toList
    channelId := "c".toList, intervalMs := 1000, messages := ["hi".toList]
    timer := some 0, subscribers := [demoSub], running := true, lastSentAt := none }

/-- `demoJob` after its running flag has been lowered. -/
def demoStoppedJob : Job := { demoJob with running := false }

/-- A registry holding `demoJob` under `"j1"`. -/
def demoState : ServerState := ⟨[("j1", demoJob)]⟩

/-- A creation payload whose message list holds a single all-whitespace
string: non-empty before sanitization, empty after. -/
def badPayload : StartPayload :=
  { name := none, token := "t".toList, channelId := "c".toList
    intervalSeconds := some (JSNum.num 5), messages := some [" ".toList] }

/-- The job `startJob` registers for `badPayload`. -/
def badJob : Job := (startJob "j1" badPayload).1

/-! ### Claim theorems -/

/-- C1: a creation spec whose messages are non-empty only before
whitespace-trimming sanitization is NOT rejected: validation checks the raw
list, so `handleStart` registers a job whose sanitized message list is empty,
and every tick of that job crashes picking from the empty pool. This refutes
"createJob fails with a validation error and no Job is registered" and the
consequence "every registered Job's message list is non-empty". -/
theorem whitespace_only_messages_register_empty_job :
    startValidationFails badPayload = false ∧
    handleStart "j1" badPayload emptyState = Except.ok ("j1", ⟨[("j1", badJob)]⟩) ∧
    badJob.messages = [] ∧ badJob.running = true ∧
    (∀ k isoNow outcome t, tick badJob k isoNow outcome t = TickOutcome.crash) := by
  refine ⟨rfl, rfl, rfl, rfl, ?_⟩
  intro k isoNow outcome t
  have hm : badJob.messages = [] := rfl
  have hr : badJob.running = true := rfl
  cases k <;> simp [tick, pickRandom, hm, hr, List.get?]

/-- C2 counterexample: a template containing `\x7bnow\x7d` twice keeps the
second occurrence literally in the selector's output, so the token does
appear in selector output, contrary to the claim. -/
theorem now_token_survives_in_output :
    containsL nowTok
      (substituteNow "2026-10-11T00:00:00.000Z".toList
        "a\x7bnow\x7db\x7bnow\x7d".toList) = true := by
  rfl

/-- C2 (amended): the selector substitutes only the FIRST literal occurrence
of `\x7bnow\x7d` with the formatted send timestamp; a template without the
token passes through unchanged, and with the token the output is the prefix
before the first occurrence, the timestamp, then the untouched remainder
(in which further occurrences survive literally). -/
theorem selector_replaces_first_now_occurrence (isoNow template : JStr) :
    (containsL nowTok template = false → substituteNow isoNow template = template) ∧
    (containsL nowTok template = true →
      ∃ pre suf, template = pre ++ nowTok ++ suf ∧
        substituteNow isoNow template = pre ++ formatNow isoNow ++ suf) :=
  ⟨fun h => replaceFirst_of_not_contains nowTok (formatNow isoNow) template h,
   fun h => replaceFirst_decomp nowTok (formatNow isoNow) template h⟩

/-- C2 witness: the amended theorem applied to a concrete template holding
one `\x7bnow\x7d` token. -/
theorem selector_replaces_first_now_occurrence_witness :
    ∃ pre suf, ("x\x7bnow\x7dy".toList : JStr) = pre ++ nowTok ++ suf ∧
      substituteNow "2026-10-11T00:00:00.000Z".toList "x\x7bnow\x7dy".toList =
        pre ++ formatNow "2026-10-11T00:00:00.000Z".toList ++ suf :=
  (selector_replaces_first_now_occurrence "2026-10-11T00:00:00.000Z".toList
    "x\x7bnow\x7dy".toList).2 (by rfl)

/-- C3: the send operation is total over every fetch outcome (it never
propagates a failure) and emits exactly one log line per attempt: an info
line containing the first-80-character prefix of the content on 2xx, an
error line containing the numeric status, status text and first-300-character
body on non-2xx, and an error line containing the failure description on a
transport-level failure. -/
theorem sender_always_logs_exactly_once (job : Job) (content : JStr) :
    (∀ outcome, ((sendDiscordMessage job content outcome).2).length = 1) ∧
    (∀ status statusText body, 200 ≤ status → status < 300 →
      (sendDiscordMessage job content (FetchOutcome.response status statusText body)).2 =
        [{ level := LogLevel.info, message := successLine content }] ∧
      containsL (content.take 80) (successLine content) = true) ∧
    (∀ status statusText body, ¬(200 ≤ status ∧ status < 300) →
      (sendDiscordMessage job content (FetchOutcome.response status statusText body)).2 =
        [{ level := LogLevel.error, message := httpErrorLine status statusText body }] ∧
      containsL (toString status).toList (httpErrorLine status statusText body) = true ∧
      containsL statusText (httpErrorLine status statusText body) = true ∧
      containsL (body.take 300) (httpErrorLine status statusText body) = true) ∧
    (∀ msg, (sendDiscordMessage job content (FetchOutcome.failure msg)).2 =
        [{ level := LogLevel.error, message := exceptionLine msg }] ∧
      containsL msg (exceptionLine msg) = true) := by
  refine ⟨?_, ?_, ?_, ?_⟩
  · intro outcome
    cases outcome with
    | response s st b =>
        by_cases h : 200 ≤ s ∧ s < 300 <;> simp [sendDiscordMessage, h]
    | failure m => simp [sendDiscordMessage]
  · intro status statusText body h1 h2
    refine ⟨by simp [sendDiscordMessage, h1, h2], ?_⟩
    simpa [successLine, List.append_assoc] using
      containsL_mid "Message sent successfully: \"".toList (content.take 80)
        "\"".toList
  · intro status statusText body h
    refine ⟨by simp [sendDiscordMessage, h], ?_, ?_, ?_⟩
    · simpa [httpErrorLine, List.append_assoc] using
        containsL_mid "HTTP ".toList (toString status).toList
          (" ".toList ++ statusText ++ " | response: ".toList ++ body.take 300)
    · simpa [httpErrorLine, List.append_assoc] using
        containsL_mid ("HTTP ".toList ++ (toString status).toList ++ " ".toList)
          statusText (" | response: ".toList ++ body.take 300)
    · simpa [httpErrorLine, List.append_assoc] using
        containsL_mid
          ("HTTP ".toList ++ (toString status).toList ++ " ".toList ++ statusText ++
            " | response: ".toList)
          (body.take 300) []
  · intro msg
    refine ⟨by simp [sendDiscordMessage], ?_⟩
    simpa [exceptionLine] using
      containsL_mid "Exception while sending message: ".toList msg []

/-- C3 witness: the sender theorem at a simulated 200 and a simulated 403. -/
theorem sender_always_logs_exactly_once_witness :
    (sendDiscordMessage demoJob "hello".toList
        (FetchOutcome.response 200 "OK".toList "".toList)).2 =
      [{ level := LogLevel.info, message := successLine "hello".toList }] ∧
    (sendDiscordMessage demoJob "hello".toList
        (FetchOutcome.response 403 "Forbidden".toList "missing access".toList)).2 =
      [{ level := LogLevel.error
         message := httpErrorLine 403 "Forbidden".toList "missing access".toList }] :=
  ⟨((sender_always_logs_exactly_once demoJob "hello".toList).2.1 200 "OK".toList
      "".toList (by decide) (by decide)).1,
   ((sender_always_logs_exactly_once demoJob "hello".toList).2.2.1 403
      "Forbidden".toList "missing access".toList (by decide)).1⟩

/-- C4: stopping a registered job returns true, makes lookup of its id
not-found, applies the notification to every attached subscriber — each
still-open sink gets the terminal stop event appended and is closed after —
lowers the running flag, clears the repeat timer, and every subsequent tick
of the job is a no-op, so no further send is initiated. -/
theorem stop_registered_job (st : ServerState) (id : String) (job : Job)
    (h : lookupJob st id = some job) :
    (stopJob id st).1 = true ∧
    lookupJob (stopJob id st).2 id = none ∧
    (stopJobAux job).subscribers = job.subscribers.map (stopNotify job.id) ∧
    (∀ s ∈ job.subscribers, s.closed = false →
      stopNotify job.id s =
        { s with events := s.events ++ [SSEvent.stopEvt job.id], closed := true }) ∧
    (stopJobAux job).running = false ∧
    (stopJobAux job).timer = none ∧
    (∀ k isoNow outcome t, tick (stopJobAux job) k isoNow outcome t =
      TickOutcome.skipped) := by
  have hfind : (st.jobs.filter (fun p => p.1 != id)).find? (fun p => p.1 == id) =
      none := by
    rw [List.find?_eq_none]
    intro x hx
    have hne := (List.mem_filter.mp hx).2
    simp only [bne_iff_ne, ne_eq] at hne
    simp [hne]
  refine ⟨by simp [stopJob, h], ?_, rfl, ?_, rfl, rfl, fun _ _ _ _ => rfl⟩
  · have hs : stopJob id st = (true, ⟨st.jobs.filter (fun p => p.1 != id)⟩) := by
      simp [stopJob, h]
    rw [hs]
    show (ServerState.jobs ⟨st.jobs.filter (fun p => p.1 != id)⟩
        |>.find? (fun p => p.1 == id)).map (fun p => p.2) = none
    rw [show ServerState.jobs ⟨st.jobs.filter (fun p => p.1 != id)⟩ =
        st.jobs.filter (fun p => p.1 != id) from rfl, hfind]
    rfl
  · intro s _ hc
    simp [stopNotify, hc]

/-- C4 witness: stopping the registered job `"j1"` of `demoState`. -/
theorem stop_registered_job_witness :
    (stopJob "j1" demoState).1 = true ∧
    lookupJob (stopJob "j1" demoState).2 "j1" = none :=
  ⟨(stop_registered_job demoState "j1" demoJob rfl).1,
   (stop_registered_job demoState "j1" demoJob rfl).2.1⟩

/-- C5: evaluation at the failing scenario. Stopping a job with one attached
subscriber closes the subscriber's sink but leaves its heartbeat interval
active — the stop path never releases the subscriber's timer (only the
transport-abort listener does, which does remove the subscriber and release
the heartbeat, double release being a no-op). -/
theorem stop_leaves_heartbeat_running :
    (stopJobAux demoJob).subscribers.map (fun s => (s.closed, s.heartbeatActive)) =
      [(true, true)] ∧
    (onAbort demoJob demoSub).1.subscribers = [] ∧
    (onAbort demoJob demoSub).2.heartbeatActive = false ∧
    releaseHeartbeat (releaseHeartbeat demoSub) = releaseHeartbeat demoSub :=
  ⟨rfl, rfl, rfl, rfl⟩

/-- C6: every job ever constructed has `intervalMs ≥ 1000` — the value is
`max 1 ⌊intervalSeconds or default⌋ * 1000` — and no operation of the system
(registering, stopping, attaching, aborting, ticking) changes `intervalMs`. -/
theorem interval_at_least_one_second :
    (∀ id p, 1000 ≤ (startJobRecord id p).intervalMs) ∧
    (∀ id p, (startJob id p).1.intervalMs = (startJobRecord id p).intervalMs) ∧
    (∀ job, (stopJobAux job).intervalMs = job.intervalMs) ∧
    (∀ subId job, ((attachSubscriber subId job).1).intervalMs = job.intervalMs) ∧
    (∀ job s, ((onAbort job s).1).intervalMs = job.intervalMs) ∧
    (∀ job k isoNow outcome t,
      match tick job k isoNow outcome t with
      | TickOutcome.sent j _ _ => j.intervalMs = job.intervalMs
      | _ => True) := by
  refine ⟨?_, fun _ _ => rfl, fun _ => rfl, fun _ _ => rfl, fun _ _ => rfl, ?_⟩
  · intro id p
    show 1000 ≤ computeIntervalMs p.intervalSeconds
    unfold computeIntervalMs
    have h1 : (1 : ℤ) ≤ max 1 ⌊jsOr p.intervalSeconds 3600⌋ := le_max_left 1 _
    nlinarith
  · intro job k isoNow outcome t
    by_cases hr : job.running = true
    · cases hp : pickRandom job.messages k with
      | none => simp [tick, hr, hp]
      | some tmpl => simp [tick, hr, hp]
    · simp [tick, hr]

/-- C7: on job start the scheduler's actions are, in order, one immediate
tick and then arming a repeating timer whose period is the job's
`intervalMs`; and a tick that runs while the running flag is false is a
no-op (no send, no state change). -/
theorem scheduler_immediate_then_interval :
    (∀ id p, (startJob id p).2 =
      [SchedulerAction.immediateTick,
       SchedulerAction.armInterval (startJob id p).1.intervalMs]) ∧
    (∀ job k isoNow outcome t, job.running = false →
      tick job k isoNow outcome t = TickOutcome.skipped) := by
  refine ⟨fun _ _ => rfl, ?_⟩
  intro job k isoNow outcome t h
  simp [tick, h]

/-- C7 witness: a tick of a job whose running flag is down is skipped. -/
theorem scheduler_immediate_then_interval_witness :
    tick demoStoppedJob 0 "X".toList (FetchOutcome.failure "f".toList) 0 =
      TickOutcome.skipped :=
  scheduler_immediate_then_interval.2 demoStoppedJob 0 "X".toList
    (FetchOutcome.failure "f".toList) 0 rfl

/-- C8: a completed tick — for EVERY fetch outcome, 2xx, non-2xx or
transport failure — produces the job with `lastSentAt := some t` and every
other field (id, name, token, channelId, intervalMs, messages, timer,
subscribers, running) exactly as before, as the record-update form shows. -/
theorem tick_updates_only_lastSentAt (job : Job) (k : Nat) (isoNow : JStr)
    (outcome : FetchOutcome) (t : Int)
    (hrun : job.running = true) (hk : k < job.messages.length) :
    ∃ m, tick job k isoNow outcome t =
      TickOutcome.sent { job with lastSentAt := some t } m
        (sendDiscordMessage job m outcome).2 := by
  have hp : pickRandom job.messages k = some (job.messages.get ⟨k, hk⟩) := by
    simp [pickRandom, List.get?_eq_get hk]
  exact ⟨substituteNow isoNow (job.messages.get ⟨k, hk⟩), by simp [tick, hrun, hp]⟩

/-- C8 witness: a tick of `demoJob` against a transport failure updates only
`lastSentAt`. -/
theorem tick_updates_only_lastSentAt_witness :
    ∃ m, tick demoJob 0 "X".toList (FetchOutcome.failure "f".toList) 5 =
      TickOutcome.sent { demoJob with lastSentAt := some 5 } m
        (sendDiscordMessage demoJob m (FetchOutcome.failure "f".toList)).2 :=
  tick_updates_only_lastSentAt demoJob 0 "X".toList
    (FetchOutcome.failure "f".toList) 5 rfl (by decide)

/-- C9: the stored credential is `ensureBotPrefix` of the trimmed input; the
scheme prefix is added exactly when the trimmed input does not already start
with `"bot "` case-insensitively (an already-prefixed credential is kept
verbatim with its casing); the stored credential always carries the scheme
token; and the outbound request transmits it verbatim in the authorization
header. -/
theorem credential_scheme_normalization :
    (∀ id p, (startJobRecord id p).token = ensureBotPrefix (jsTrim p.token)) ∧
    (∀ t, startsWithL botSp (jsToLower t) = true → ensureBotPrefix t = t) ∧
    (∀ t, startsWithL botSp (jsToLower t) = false →
      ensureBotPrefix t = "Bot ".toList ++ t) ∧
    (∀ t, startsWithL botSp (jsToLower (ensureBotPrefix t)) = true) ∧
    (∀ job content outcome,
      (sendDiscordMessage job content outcome).1 = discordRequest job content ∧
      (discordRequest job content).authorization = job.token) := by
  refine ⟨fun _ _ => rfl, ?_, ?_, ?_, fun _ _ _ => ⟨rfl, rfl⟩⟩
  · intro t h
    simp [ensureBotPrefix, h]
  · intro t h
    simp [ensureBotPrefix, h]
  · intro t
    cases h : startsWithL botSp (jsToLower t) with
    | true => simp [ensureBotPrefix, h]
    | false =>
        have h1 : jsToLower ("Bot ".toList ++ t) = botSp ++ jsToLower t := by
          unfold jsToLower
          rw [List.map_append]
          congr 1
        simp only [ensureBotPrefix, h, Bool.false_eq_true, if_false]
        rw [h1]
        exact startsWithL_append botSp (jsToLower t)

/-- C9 witness: an already-prefixed credential (lowercase scheme) is kept
verbatim; an unprefixed one gains the `"Bot "` scheme. -/
theorem credential_scheme_normalization_witness :
    ensureBotPrefix "bot abc".toList = "bot abc".toList ∧
    ensureBotPrefix "abc".toList = "Bot ".toList ++ "abc".toList :=
  ⟨credential_scheme_normalization.2.1 "bot abc".toList (by decide),
   credential_scheme_normalization.2.2.1 "abc".toList (by decide)⟩

/-- C10: a falsy `intervalSeconds` (absent, NaN or 0) makes the job use the
3600-second default (3600000 ms ≠ the 1000 ms minimum); a truthy value is
floored and clamped to at least 1 second, in particular any nonzero value
below 1 yields exactly 1000 ms. -/
theorem falsy_interval_defaults_to_one_hour :
    computeIntervalMs none = 3600000 ∧
    computeIntervalMs (some JSNum.nan) = 3600000 ∧
    computeIntervalMs (some (JSNum.num 0)) = 3600000 ∧
    (3600000 : Int) ≠ 1000 ∧
    (∀ q : ℚ, q ≠ 0 → computeIntervalMs (some (JSNum.num q)) = max 1 ⌊q⌋ * 1000) ∧
    (∀ q : ℚ, q ≠ 0 → q < 1 → computeIntervalMs (some (JSNum.num q)) = 1000) ∧
    (∀ id p, (startJobRecord id p).intervalMs = computeIntervalMs p.intervalSeconds) := by
  refine ⟨?_, ?_, ?_, by decide, ?_, ?_, fun _ _ => rfl⟩
  · norm_num [computeIntervalMs, jsOr]
  · norm_num [computeIntervalMs, jsOr]
  · norm_num [computeIntervalMs, jsOr]
  · intro q hq0
    simp [computeIntervalMs, jsOr, hq0]
  · intro q hq0 hq1
    have hfloor : ⌊q⌋ < 1 := by
      rw [Int.floor_lt]
      exact_mod_cast hq1
    have hmax : max 1 ⌊q⌋ = 1 := max_eq_left (by omega)
    simp [computeIntervalMs, jsOr, hq0, hmax]

/-- C10 witness: `intervalSeconds = 1/2` is truthy and below 1, so it is
clamped to exactly 1000 ms (not defaulted to an hour). -/
theorem falsy_interval_defaults_to_one_hour_witness :
    computeIntervalMs (some (JSNum.num (1 / 2))) = 1000 :=
  falsy_interval_defaults_to_one_hour.2.2.2.2.2.1 (1 / 2) (by norm_num) (by norm_num)

end Botdc
